import Mathlib

/-!
# cmsmgmt: platform detection and command routing

A shallow embedding of `main.go`.  The program is a cobra command tree whose
handlers detect the installed CMS from two marker files and dispatch to the
`wordpress` or `joomla` package.

What the embedding makes explicit:

* the package variable `cmsPath`, the standard-library calls `filepath.Join`
  and `os.Stat`, and the functions of the packages `cmsmgmt/wordpress` and
  `cmsmgmt/joomla` are the fields of an environment `Env`; the handlers are
  ordinary functions of that environment;
* every effect a handler performs is recorded, in program order, in a trace of
  `Event`s: an `os.Stat` call, a call into an adapter package, a write to
  standard output, a `log` line;
* `log.Fatal` ends the process with status 1; a handler that returns lets
  `main` fall off its end, which is status 0.
-/

namespace Cmsmgmt

/-! ## Data model -/

/-- The outcomes of `os.Stat` the program can tell apart, and one it cannot:
`ok` is `err == nil`; `notExist` is an error for which `os.IsNotExist` holds
(`ENOENT`); `notDir` is `ENOTDIR`, returned when a component of the path is
not a directory, so that nothing exists at the path, yet `os.IsNotExist` is
false of it; `otherError` is any other error (permission denied and the
like), for which `os.IsNotExist` is false too. -/
inductive StatResult where
  | ok
  | notExist
  | notDir
  | otherError
  deriving DecidableEq, Repr

/-- Modelled from the spec: the configuration type of the `joomla` package
(the spec's `DBConfig`), declared outside `main.go`.  Only the two fields
`main.go` reads are kept, under the names it reads them by (`cfg.DBName`,
`cfg.User`), both printed with `%s`. -/
structure Config where
  DBName : String
  User : String
  deriving DecidableEq, Repr

/-- Modelled from the spec: the record type returned by `joomla.ListUsers`,
declared in the `joomla` package.  `main.go` reads the fields `ID` (printed
with `%d`), `Username`, `Name`, `Email` (printed with `%s`) and `Roles`
(printed with `%v`); the spec gives `ID` as an integer and `Roles` as a
collection of strings. -/
structure User where
  ID : Int
  Username : String
  Name : String
  Email : String
  Roles : List String
  deriving DecidableEq, Repr

/-- A call from `main.go` into one of the two adapter packages, with the
arguments passed.  The database handle returned by `joomla.ProcessJoomla`,
which `main.go` only passes on, is a number; the default table prefix, which
`main.go` formats with `%s`, is a string. -/
inductive AdapterCall where
  | wordpressProcessWordPress (path : String)
  | wordpressEditUser (path username : String)
  | wordpressShowInfo (path : String)
  | wordpressGetVersion (path : String)
  | joomlaProcessJoomla (path : String)
  | joomlaListUsers (db : Nat) (pfx : String)
  | joomlaEditUser (db : Nat) (pfx path username : String)
  | joomlaShowInfo (path : String)
  | joomlaGetVersion (path : String)
  deriving DecidableEq, Repr

/-- One observable step of a run: an `os.Stat` call, an adapter call together
with the error it returned, a write to standard output, a line handed to the
`log` package. -/
inductive Event where
  | stat (path : String)
  | call (c : AdapterCall) (err : Option String)
  | out (s : String)
  | log (s : String)
  deriving DecidableEq, Repr

/-- Everything `main.go` reads from outside itself.  A Go `error` is
`Option String`: `none` is `nil`, `some m` is an error whose text is `m`.
The adapter functions are those of the packages `cmsmgmt/wordpress` and
`cmsmgmt/joomla`, with the argument and result lists `main.go` uses them
with; each is taken to return to its caller. -/
structure Env where
  /-- the package variable bound to `--path` / `-p` (default `""`) -/
  cmsPath : String
  /-- `filepath.Join` applied to two elements -/
  join : String → String → String
  /-- `os.Stat`, result only -/
  stat : String → StatResult
  /-- `wordpress.ProcessWordPress(path)` -/
  wordpressProcessWordPress : String → Option String
  /-- `wordpress.EditUser(path, username)` -/
  wordpressEditUser : String → String → Option String
  /-- `wordpress.ShowInfo(path)` -/
  wordpressShowInfo : String → Option String
  /-- `wordpress.GetVersion(path)` -/
  wordpressGetVersion : String → String × Option String
  /-- `joomla.ProcessJoomla(path)`: handle, config, default table prefix, error -/
  joomlaProcessJoomla : String → Nat × Config × String × Option String
  /-- `joomla.ListUsers(db, defaultPrefix)` -/
  joomlaListUsers : Nat → String → List User × Option String
  /-- `joomla.EditUser(db, defaultPrefix, path, username)` -/
  joomlaEditUser : Nat → String → String → String → Option String
  /-- `joomla.ShowInfo(path)` -/
  joomlaShowInfo : String → Option String
  /-- `joomla.GetVersion(path)`: version, release, error -/
  joomlaGetVersion : String → String × String × Option String

/-- How a handler's execution ends: it returns to cobra, or `log.Fatal` stops
the process, or indexing `args[0]` on an empty slice panics. -/
inductive Status where
  | returned
  | fatal
  | panicked
  deriving DecidableEq, Repr

/-- The exit status of the process for each way a handler ends: 0 when `main`
runs to its end, 1 from `log.Fatal`, 2 from a panic. -/
def Status.exitCode : Status → Nat
  | .returned => 0
  | .fatal => 1
  | .panicked => 2

/-- The effects of a handler and the way it ended. -/
structure Outcome where
  trace : List Event
  status : Status
  deriving DecidableEq, Repr

/-- The effects of a whole invocation and the exit status of the process. -/
structure Result where
  trace : List Event
  exitCode : Nat
  deriving DecidableEq, Repr

/-! ## Detection -/

/-- `detectCMS()`: the tag, and the `os.Stat` calls made to find it. -/
def detectCMS (e : Env) : String × List Event :=
  let wpConfig := e.join e.cmsPath "wp-config.php"
  let joomlaConfig := e.join e.cmsPath "configuration.php"
  match e.stat wpConfig with
  | .ok => ("wordpress", [.stat wpConfig])
  | _ =>
    match e.stat joomlaConfig with
    | .ok => ("joomla", [.stat wpConfig, .stat joomlaConfig])
    | _ => ("", [.stat wpConfig, .stat joomlaConfig])

/-! ## Formatting -/

/-- The text of the `log.Fatal` call every platform-requiring handler makes
when `detectCMS` returns `""`. -/
def undetectedMsg : String :=
  "Unable to detect CMS type. Make sure you're in the correct directory or specify the correct path using the -p flag."

/-- The text printed by the `users info` handler, newline included. -/
def notImplementedMsg : String :=
  "User info functionality not implemented yet.\n"

/-- The verb `%v` on a slice of strings: the elements separated by blanks,
in square brackets. -/
def fmtStrings (xs : List String) : String :=
  "[" ++ " ".intercalate xs ++ "]"

/-- The line `fmt.Printf("ID:%d  Username:%s  Name:%s  Email:%s  Roles:%v\n", ...)`
writes for one user. -/
def userLine (u : User) : String :=
  "ID:" ++ toString u.ID ++ "  Username:" ++ u.Username ++ "  Name:" ++ u.Name ++
    "  Email:" ++ u.Email ++ "  Roles:" ++ fmtStrings u.Roles ++ "\n"

/-! ## Handlers -/

/-- The `Run` function of `listCmd` (`users list`). -/
def listCmdRun (e : Env) : Outcome :=
  let (cmsType, t0) := detectCMS e
  if cmsType = "" then
    ⟨t0 ++ [.log undetectedMsg], .fatal⟩
  else
    let (err, t1) : Option String × List Event :=
      if cmsType = "wordpress" then
        let err1 := e.wordpressProcessWordPress e.cmsPath
        (err1, [.call (.wordpressProcessWordPress e.cmsPath) err1])
      else if cmsType = "joomla" then
        let (db, cfg, defaultPrefix, err2) := e.joomlaProcessJoomla e.cmsPath
        let tp : List Event := [.call (.joomlaProcessJoomla e.cmsPath) err2]
        match err2 with
        | none =>
          let hd : List Event :=
            [.out ("Joomla DB Name: " ++ cfg.DBName ++ "\n"),
             .out ("Joomla DB User: " ++ cfg.User ++ "\n"),
             .out ("Identified Joomla table prefixes: " ++ defaultPrefix ++ "\n")]
          let (users, err3) := e.joomlaListUsers db defaultPrefix
          let tl : List Event := [.call (.joomlaListUsers db defaultPrefix) err3]
          match err3 with
          | some m =>
            (err2, tp ++ hd ++ tl ++
              [.log ("list users for prefix " ++ defaultPrefix ++ ": " ++ m),
               .out ("list users for prefix " ++ defaultPrefix ++ ": " ++ m ++ "\n")])
          | none =>
            (err2, tp ++ hd ++ tl ++
              [.out ("\nUsers for prefix '" ++ defaultPrefix ++ "':\n")] ++
              users.map (fun u => Event.out (userLine u)))
        | some _ => (err2, tp)
      else (none, [])
    match err with
    | some m => ⟨t0 ++ t1 ++ [.log ("Error processing " ++ cmsType ++ ": " ++ m)], .returned⟩
    | none => ⟨t0 ++ t1, .returned⟩

/-- The `Run` function of `userInfoCmd` (`users info`). -/
def userInfoCmdRun (_e : Env) : Outcome :=
  ⟨[.out notImplementedMsg], .returned⟩

/-- The `Run` function of `editCmd` (`users edit`); `args` are the positional
arguments cobra hands over. -/
def editCmdRun (e : Env) (args : List String) : Outcome :=
  match args with
  | [] => ⟨[], .panicked⟩
  | username :: _ =>
    let (cmsType, t0) := detectCMS e
    if cmsType = "" then
      ⟨t0 ++ [.log undetectedMsg], .fatal⟩
    else
      let (err, t1) : Option String × List Event :=
        if cmsType = "wordpress" then
          let err1 := e.wordpressEditUser e.cmsPath username
          (err1, [.call (.wordpressEditUser e.cmsPath username) err1])
        else if cmsType = "joomla" then
          let (db, _, defaultPrefix, err2) := e.joomlaProcessJoomla e.cmsPath
          let tp : List Event := [.call (.joomlaProcessJoomla e.cmsPath) err2]
          match err2 with
          | none =>
            let err3 := e.joomlaEditUser db defaultPrefix e.cmsPath username
            (err3, tp ++ [.call (.joomlaEditUser db defaultPrefix e.cmsPath username) err3])
          | some _ => (err2, tp)
        else (none, [])
      match err with
      | some m => ⟨t0 ++ t1 ++ [.log ("Error editing " ++ cmsType ++ " user: " ++ m)], .returned⟩
      | none => ⟨t0 ++ t1, .returned⟩

/-- The `Run` function of `dbCmd` (`info db`). -/
def dbCmdRun (e : Env) : Outcome :=
  let (cmsType, t0) := detectCMS e
  if cmsType = "" then
    ⟨t0 ++ [.log undetectedMsg], .fatal⟩
  else
    let (err, t1) : Option String × List Event :=
      if cmsType = "wordpress" then
        let err1 := e.wordpressShowInfo e.cmsPath
        (err1, [.call (.wordpressShowInfo e.cmsPath) err1])
      else if cmsType = "joomla" then
        let err1 := e.joomlaShowInfo e.cmsPath
        (err1, [.call (.joomlaShowInfo e.cmsPath) err1])
      else (none, [])
    match err with
    | some m => ⟨t0 ++ t1 ++ [.log ("Error showing " ++ cmsType ++ " info: " ++ m)], .returned⟩
    | none => ⟨t0 ++ t1, .returned⟩

/-- The `Run` function of `versionCmd` (`info version`). -/
def versionCmdRun (e : Env) : Outcome :=
  let (cmsType, t0) := detectCMS e
  if cmsType = "" then
    ⟨t0 ++ [.log undetectedMsg], .fatal⟩
  else
    let (version, rel, err, t1) : String × String × Option String × List Event :=
      if cmsType = "wordpress" then
        let (v, er) := e.wordpressGetVersion e.cmsPath
        (v, "", er, [.call (.wordpressGetVersion e.cmsPath) er])
      else if cmsType = "joomla" then
        let (v, r, er) := e.joomlaGetVersion e.cmsPath
        (v, r, er, [.call (.joomlaGetVersion e.cmsPath) er])
      else ("", "", none, [])
    match err with
    | some m => ⟨t0 ++ t1 ++ [.log ("Error showing " ++ cmsType ++ " version: " ++ m)], .returned⟩
    | none =>
      ⟨t0 ++ t1 ++ [.out (cmsType ++ " Version: " ++ version ++ "\n")] ++
        (if cmsType = "joomla" then [.out ("Release: " ++ rel ++ "\n")] else []), .returned⟩

/-! ## The command tree and `main` -/

/-- The five runnable commands of the tree built in `main`. -/
inductive Command where
  | usersList
  | usersInfo
  | usersEdit
  | infoDb
  | infoVersion
  deriving DecidableEq, Repr

/-- Positional-argument validation: `editCmd` is declared with
`cobra.ExactArgs(1)`, the other commands declare nothing and take any
arguments. -/
def validateArgs (cmd : Command) (args : List String) : Option String :=
  match cmd with
  | .usersEdit =>
    if args.length = 1 then none
    else some ("accepts 1 arg(s), received " ++ toString args.length)
  | _ => none

/-- The `PersistentPreRunE` function of `rootCmd`: the error it returns and
the `os.Stat` call it makes. -/
def persistentPreRunE (e : Env) : Option String × List Event :=
  if e.cmsPath ≠ "" then
    match e.stat e.cmsPath with
    | .notExist =>
      (some ("The specified CMS path does not exist: " ++ e.cmsPath), [.stat e.cmsPath])
    | _ => (none, [.stat e.cmsPath])
  else (none, [])

/-- The handler cobra runs for a command. -/
def run (e : Env) (cmd : Command) (args : List String) : Outcome :=
  match cmd with
  | .usersList => listCmdRun e
  | .usersInfo => userInfoCmdRun e
  | .usersEdit => editCmdRun e args
  | .infoDb => dbCmdRun e
  | .infoVersion => versionCmdRun e

/-- The function `main`, for a command line that names one of the five
commands: `rootCmd.Execute()` validates the positional arguments, calls
`PersistentPreRunE`, then the command's `Run`; an error from either of the
first two comes back from `Execute` and goes to `log.Fatal`.  What cobra
itself prints is not recorded. -/
def main (e : Env) (cmd : Command) (args : List String) : Result :=
  match validateArgs cmd args with
  | some m => ⟨[.log m], 1⟩
  | none =>
    let (err, t0) := persistentPreRunE e
    match err with
    | some m => ⟨t0 ++ [.log m], 1⟩
    | none =>
      let o := run e cmd args
      ⟨t0 ++ o.trace, o.status.exitCode⟩

/-! ## Reading a trace -/

/-- The adapter calls of a trace, in order. -/
def adapterCalls (t : List Event) : List AdapterCall :=
  t.filterMap fun ev => match ev with
    | .call c _ => some c
    | _ => none

/-- The adapter calls of a trace, each with the error it returned, in
order. -/
def callResults (t : List Event) : List (AdapterCall × Option String) :=
  t.filterMap fun ev => match ev with
    | .call c err => some (c, err)
    | _ => none

/-- The errors adapter calls returned, in order. -/
def callErrors (t : List Event) : List String :=
  t.filterMap fun ev => match ev with
    | .call _ (some m) => some m
    | _ => none

/-- The paths handed to `os.Stat`, in order. -/
def statPaths (t : List Event) : List String :=
  t.filterMap fun ev => match ev with
    | .stat p => some p
    | _ => none

/-- What was written to standard output, in order. -/
def stdoutOf (t : List Event) : List String :=
  t.filterMap fun ev => match ev with
    | .out s => some s
    | _ => none

/-- The messages handed to the `log` package, in order. -/
def logsOf (t : List Event) : List String :=
  t.filterMap fun ev => match ev with
    | .log s => some s
    | _ => none

/-! ## Sample environments -/

/-- Joining for the sample environments: what `filepath.Join` gives for a
clean directory name and a file name. -/
def slashJoin (dir name : String) : String :=
  if dir = "" then name else dir ++ "/" ++ name

/-- An environment over the root `root` in which exactly the paths of
`present` can be stat-ed, every other path is reported missing, and every
adapter function succeeds with empty values. -/
def sampleEnv (root : String) (present : List String) : Env where
  cmsPath := root
  join := slashJoin
  stat := fun p => if p ∈ present then .ok else .notExist
  wordpressProcessWordPress := fun _ => none
  wordpressEditUser := fun _ _ => none
  wordpressShowInfo := fun _ => none
  wordpressGetVersion := fun _ => ("6.4.2", none)
  joomlaProcessJoomla := fun _ => (1, ⟨"joomla_db", "joomla_user"⟩, "jos_", none)
  joomlaListUsers := fun _ _ => ([], none)
  joomlaEditUser := fun _ _ _ _ => none
  joomlaShowInfo := fun _ => none
  joomlaGetVersion := fun _ => ("4.4.1", "Stable", none)

/-- As `sampleEnv`, but every adapter function returns the error `m`. -/
def failingEnv (root : String) (present : List String) (m : String) : Env where
  cmsPath := root
  join := slashJoin
  stat := fun p => if p ∈ present then .ok else .notExist
  wordpressProcessWordPress := fun _ => some m
  wordpressEditUser := fun _ _ => some m
  wordpressShowInfo := fun _ => some m
  wordpressGetVersion := fun _ => ("", some m)
  joomlaProcessJoomla := fun _ => (0, ⟨"", ""⟩, "", some m)
  joomlaListUsers := fun _ _ => ([], some m)
  joomlaEditUser := fun _ _ _ _ => some m
  joomlaShowInfo := fun _ => some m
  joomlaGetVersion := fun _ => ("", "", some m)

/-- As `sampleEnv`, but `joomla.GetVersion` succeeds with the release `rel`
and `joomla.ListUsers` succeeds with `users`. -/
def joomlaEnv (root : String) (present : List String) (rel : String)
    (users : List User) : Env where
  cmsPath := root
  join := slashJoin
  stat := fun p => if p ∈ present then .ok else .notExist
  wordpressProcessWordPress := fun _ => none
  wordpressEditUser := fun _ _ => none
  wordpressShowInfo := fun _ => none
  wordpressGetVersion := fun _ => ("6.4.2", none)
  joomlaProcessJoomla := fun _ => (1, ⟨"joomla_db", "joomla_user"⟩, "jos_", none)
  joomlaListUsers := fun _ _ => (users, none)
  joomlaEditUser := fun _ _ _ _ => none
  joomlaShowInfo := fun _ => none
  joomlaGetVersion := fun _ => ("4.4.1", rel, none)

/-- An environment whose root `srv/file/sub` lies below the regular file
`srv/file`: `os.Stat` succeeds on `srv/file` and fails with `ENOTDIR` on the
root and on the two marker paths under it, so nothing exists at the root;
every other path is reported missing.  The adapter functions are those of
`sampleEnv`. -/
def notDirEnv : Env where
  cmsPath := "srv/file/sub"
  join := slashJoin
  stat := fun p =>
    if p = "srv/file" then .ok
    else if p ∈ ["srv/file/sub", "srv/file/sub/wp-config.php",
      "srv/file/sub/configuration.php"] then .notDir
    else .notExist
  wordpressProcessWordPress := fun _ => none
  wordpressEditUser := fun _ _ => none
  wordpressShowInfo := fun _ => none
  wordpressGetVersion := fun _ => ("6.4.2", none)
  joomlaProcessJoomla := fun _ => (1, ⟨"joomla_db", "joomla_user"⟩, "jos_", none)
  joomlaListUsers := fun _ _ => ([], none)
  joomlaEditUser := fun _ _ _ _ => none
  joomlaShowInfo := fun _ => none
  joomlaGetVersion := fun _ => ("4.4.1", "Stable", none)

/-! ## Detection: basic facts -/

theorem detectCMS_of_wp (e : Env)
    (h : e.stat (e.join e.cmsPath "wp-config.php") = .ok) :
    detectCMS e = ("wordpress", [.stat (e.join e.cmsPath "wp-config.php")]) := by
  simp [detectCMS, h]

theorem detectCMS_of_joomla (e : Env)
    (h₁ : e.stat (e.join e.cmsPath "wp-config.php") ≠ .ok)
    (h₂ : e.stat (e.join e.cmsPath "configuration.php") = .ok) :
    detectCMS e = ("joomla", [.stat (e.join e.cmsPath "wp-config.php"),
      .stat (e.join e.cmsPath "configuration.php")]) := by
  unfold detectCMS
  cases hw : e.stat (e.join e.cmsPath "wp-config.php") <;> simp_all

theorem detectCMS_of_neither (e : Env)
    (h₁ : e.stat (e.join e.cmsPath "wp-config.php") ≠ .ok)
    (h₂ : e.stat (e.join e.cmsPath "configuration.php") ≠ .ok) :
    detectCMS e = ("", [.stat (e.join e.cmsPath "wp-config.php"),
      .stat (e.join e.cmsPath "configuration.php")]) := by
  unfold detectCMS
  cases hw : e.stat (e.join e.cmsPath "wp-config.php") <;>
    cases hj : e.stat (e.join e.cmsPath "configuration.php") <;> simp_all

/-- The three ways detection can go, with the marker facts behind each. -/
theorem detectCMS_cases (e : Env) :
    (e.stat (e.join e.cmsPath "wp-config.php") = .ok ∧
      detectCMS e = ("wordpress", [.stat (e.join e.cmsPath "wp-config.php")])) ∨
    (e.stat (e.join e.cmsPath "wp-config.php") ≠ .ok ∧
      e.stat (e.join e.cmsPath "configuration.php") = .ok ∧
      detectCMS e = ("joomla", [.stat (e.join e.cmsPath "wp-config.php"),
        .stat (e.join e.cmsPath "configuration.php")])) ∨
    (e.stat (e.join e.cmsPath "wp-config.php") ≠ .ok ∧
      e.stat (e.join e.cmsPath "configuration.php") ≠ .ok ∧
      detectCMS e = ("", [.stat (e.join e.cmsPath "wp-config.php"),
        .stat (e.join e.cmsPath "configuration.php")])) := by
  by_cases hw : e.stat (e.join e.cmsPath "wp-config.php") = .ok
  · exact Or.inl ⟨hw, detectCMS_of_wp e hw⟩
  · by_cases hj : e.stat (e.join e.cmsPath "configuration.php") = .ok
    · exact Or.inr (Or.inl ⟨hw, hj, detectCMS_of_joomla e hw hj⟩)
    · exact Or.inr (Or.inr ⟨hw, hj, detectCMS_of_neither e hw hj⟩)

/-! ## Detection: the claims -/

/-- C1. `detectCMS` returns `"wordpress"` when `wp-config.php` under the root
can be stat-ed and `configuration.php` cannot, `"joomla"` when
`configuration.php` can and `wp-config.php` cannot, and the empty string when
neither can: for every root path and every filesystem state. -/
theorem detectCMS_single_marker (e : Env) :
    (e.stat (e.join e.cmsPath "wp-config.php") = .ok →
      e.stat (e.join e.cmsPath "configuration.php") ≠ .ok →
      (detectCMS e).1 = "wordpress") ∧
    (e.stat (e.join e.cmsPath "wp-config.php") ≠ .ok →
      e.stat (e.join e.cmsPath "configuration.php") = .ok →
      (detectCMS e).1 = "joomla") ∧
    (e.stat (e.join e.cmsPath "wp-config.php") ≠ .ok →
      e.stat (e.join e.cmsPath "configuration.php") ≠ .ok →
      (detectCMS e).1 = "") := by
  refine ⟨fun hw _ => ?_, fun hw hj => ?_, fun hw hj => ?_⟩
  · rw [detectCMS_of_wp e hw]
  · rw [detectCMS_of_joomla e hw hj]
  · rw [detectCMS_of_neither e hw hj]

/-- C1, at three roots: one holding only `wp-config.php`, one holding only
`configuration.php`, one holding neither. -/
theorem detectCMS_single_marker_witness :
    (detectCMS (sampleEnv "/srv/wp" ["/srv/wp", "/srv/wp/wp-config.php"])).1 = "wordpress" ∧
    (detectCMS (sampleEnv "/srv/j" ["/srv/j", "/srv/j/configuration.php"])).1 = "joomla" ∧
    (detectCMS (sampleEnv "/srv/none" ["/srv/none"])).1 = "" :=
  ⟨(detectCMS_single_marker _).1 (by decide) (by decide),
   (detectCMS_single_marker _).2.1 (by decide) (by decide),
   (detectCMS_single_marker _).2.2 (by decide) (by decide)⟩

/-- C2. When both marker files can be stat-ed the tag is `"wordpress"`, the
first in the check order; the tag is the same in any two environments that
agree on whether each marker can be stat-ed, so it depends on nothing else
(and is the same on every call while the filesystem is unchanged); and the
only effects of a call are `os.Stat` calls, which leave the filesystem as it
was. -/
theorem detectCMS_priority_deterministic (e₁ e₂ : Env) :
    (e₁.stat (e₁.join e₁.cmsPath "wp-config.php") = .ok →
      e₁.stat (e₁.join e₁.cmsPath "configuration.php") = .ok →
      (detectCMS e₁).1 = "wordpress") ∧
    ((e₁.stat (e₁.join e₁.cmsPath "wp-config.php") = .ok ↔
        e₂.stat (e₂.join e₂.cmsPath "wp-config.php") = .ok) →
      (e₁.stat (e₁.join e₁.cmsPath "configuration.php") = .ok ↔
        e₂.stat (e₂.join e₂.cmsPath "configuration.php") = .ok) →
      (detectCMS e₁).1 = (detectCMS e₂).1) ∧
    (∀ ev ∈ (detectCMS e₁).2, ∃ p, ev = Event.stat p) := by
  refine ⟨fun hw _ => ?_, fun hw hj => ?_, ?_⟩
  · rw [detectCMS_of_wp e₁ hw]
  · rcases detectCMS_cases e₁ with ⟨a, ha⟩ | ⟨a, b, ha⟩ | ⟨a, b, ha⟩
    · rw [ha, detectCMS_of_wp e₂ (hw.mp a)]
    · rw [ha, detectCMS_of_joomla e₂ (fun h => a (hw.mpr h)) (hj.mp b)]
    · rw [ha, detectCMS_of_neither e₂ (fun h => a (hw.mpr h)) (fun h => b (hj.mpr h))]
  · rcases detectCMS_cases e₁ with ⟨_, ha⟩ | ⟨_, _, ha⟩ | ⟨_, _, ha⟩ <;>
      simp [ha]

/-- C2, at a root holding both marker files, compared with itself and with a
second root that also holds both. -/
theorem detectCMS_priority_deterministic_witness :
    (detectCMS (sampleEnv "/srv/both"
      ["/srv/both", "/srv/both/wp-config.php", "/srv/both/configuration.php"])).1 = "wordpress" ∧
    (detectCMS (sampleEnv "/srv/both"
      ["/srv/both", "/srv/both/wp-config.php", "/srv/both/configuration.php"])).1 =
    (detectCMS (sampleEnv "/var/www"
      ["/var/www", "/var/www/wp-config.php", "/var/www/configuration.php"])).1 :=
  ⟨(detectCMS_priority_deterministic
      (sampleEnv "/srv/both"
        ["/srv/both", "/srv/both/wp-config.php", "/srv/both/configuration.php"])
      (sampleEnv "/var/www"
        ["/var/www", "/var/www/wp-config.php", "/var/www/configuration.php"])).1
      (by decide) (by decide),
   (detectCMS_priority_deterministic
      (sampleEnv "/srv/both"
        ["/srv/both", "/srv/both/wp-config.php", "/srv/both/configuration.php"])
      (sampleEnv "/var/www"
        ["/var/www", "/var/www/wp-config.php", "/var/www/configuration.php"])).2.1
      (by decide) (by decide)⟩

/-! ## The pre-run check and `main`: basic facts -/

theorem persistentPreRunE_missing (e : Env) (hp : e.cmsPath ≠ "")
    (hs : e.stat e.cmsPath = .notExist) :
    persistentPreRunE e =
      (some ("The specified CMS path does not exist: " ++ e.cmsPath), [.stat e.cmsPath]) := by
  simp [persistentPreRunE, hp, hs]

theorem persistentPreRunE_pass (e : Env)
    (h : e.cmsPath = "" ∨ e.stat e.cmsPath ≠ .notExist) :
    (persistentPreRunE e).1 = none := by
  unfold persistentPreRunE
  by_cases hp : e.cmsPath = ""
  · simp [hp]
  · rcases h with h | h
    · exact absurd h hp
    · cases hs : e.stat e.cmsPath <;> simp_all

/-- The pre-run check calls no adapter and stats nothing but the root. -/
theorem persistentPreRunE_trace (e : Env) :
    adapterCalls (persistentPreRunE e).2 = [] ∧
    (statPaths (persistentPreRunE e).2).Sublist [e.cmsPath] := by
  unfold persistentPreRunE
  by_cases hp : e.cmsPath = ""
  · simp [hp, adapterCalls, statPaths]
  · cases hs : e.stat e.cmsPath <;> simp [hp, adapterCalls, statPaths]

/-- The pre-run check logs nothing, prints nothing and no adapter call in it
fails (there is none). -/
theorem persistentPreRunE_quiet (e : Env) :
    logsOf (persistentPreRunE e).2 = [] ∧
    callErrors (persistentPreRunE e).2 = [] ∧
    stdoutOf (persistentPreRunE e).2 = [] := by
  unfold persistentPreRunE
  by_cases hp : e.cmsPath = ""
  · simp [hp, logsOf, callErrors, stdoutOf]
  · cases hs : e.stat e.cmsPath <;> simp [hp, logsOf, callErrors, stdoutOf]

/-- An invocation whose arguments and path pass runs the handler. -/
theorem main_of_pass (e : Env) (cmd : Command) (args : List String)
    (ha : validateArgs cmd args = none) (hp : (persistentPreRunE e).1 = none) :
    main e cmd args =
      ⟨(persistentPreRunE e).2 ++ (run e cmd args).trace, (run e cmd args).status.exitCode⟩ := by
  unfold main
  rw [ha]
  rcases hpre : persistentPreRunE e with ⟨err, t0⟩
  rw [hpre] at hp
  simp only at hp
  subst hp
  rfl

/-- An invocation whose path is rejected stops at the pre-run check. -/
theorem main_of_missing (e : Env) (cmd : Command) (args : List String)
    (ha : validateArgs cmd args = none) (hp : e.cmsPath ≠ "")
    (hs : e.stat e.cmsPath = .notExist) :
    main e cmd args =
      ⟨[.stat e.cmsPath, .log ("The specified CMS path does not exist: " ++ e.cmsPath)], 1⟩ := by
  unfold main
  rw [ha, persistentPreRunE_missing e hp hs]
  rfl

/-- An invocation whose arguments are rejected does nothing but report it. -/
theorem main_of_bad_args (e : Env) (cmd : Command) (args : List String) (m : String)
    (ha : validateArgs cmd args = some m) :
    main e cmd args = ⟨[.log m], 1⟩ := by
  unfold main
  rw [ha]

/-! ## Handlers on an undetected platform -/

theorem listCmdRun_undetected (e : Env) (h : (detectCMS e).1 = "") :
    listCmdRun e = ⟨(detectCMS e).2 ++ [.log undetectedMsg], .fatal⟩ := by
  unfold listCmdRun
  rcases hd : detectCMS e with ⟨tag, t0⟩
  rw [hd] at h
  simp only at h
  subst h
  simp

theorem editCmdRun_undetected (e : Env) (username : String) (rest : List String)
    (h : (detectCMS e).1 = "") :
    editCmdRun e (username :: rest) = ⟨(detectCMS e).2 ++ [.log undetectedMsg], .fatal⟩ := by
  unfold editCmdRun
  rcases hd : detectCMS e with ⟨tag, t0⟩
  rw [hd] at h
  simp only at h
  subst h
  simp

theorem dbCmdRun_undetected (e : Env) (h : (detectCMS e).1 = "") :
    dbCmdRun e = ⟨(detectCMS e).2 ++ [.log undetectedMsg], .fatal⟩ := by
  unfold dbCmdRun
  rcases hd : detectCMS e with ⟨tag, t0⟩
  rw [hd] at h
  simp only at h
  subst h
  simp

theorem versionCmdRun_undetected (e : Env) (h : (detectCMS e).1 = "") :
    versionCmdRun e = ⟨(detectCMS e).2 ++ [.log undetectedMsg], .fatal⟩ := by
  unfold versionCmdRun
  rcases hd : detectCMS e with ⟨tag, t0⟩
  rw [hd] at h
  simp only at h
  subst h
  simp

/-- Detection calls no adapter. -/
theorem detectCMS_no_calls (e : Env) : adapterCalls (detectCMS e).2 = [] := by
  rcases detectCMS_cases e with ⟨_, ha⟩ | ⟨_, _, ha⟩ | ⟨_, _, ha⟩ <;>
    simp [ha, adapterCalls]

/-- `ExactArgs(1)` passes exactly the one-element argument lists. -/
theorem validateArgs_usersEdit (args : List String) :
    validateArgs .usersEdit args = none ↔ ∃ username, args = [username] := by
  simp [validateArgs, List.length_eq_one]

/-- On an undetected platform each platform-requiring handler, given
arguments that passed validation, stops in `log.Fatal` after detection. -/
theorem run_undetected (e : Env) (cmd : Command) (args : List String)
    (hcmd : cmd ≠ .usersInfo) (ha : validateArgs cmd args = none)
    (h : (detectCMS e).1 = "") :
    run e cmd args = ⟨(detectCMS e).2 ++ [.log undetectedMsg], .fatal⟩ := by
  cases cmd with
  | usersInfo => exact absurd rfl hcmd
  | usersList => exact listCmdRun_undetected e h
  | infoDb => exact dbCmdRun_undetected e h
  | infoVersion => exact versionCmdRun_undetected e h
  | usersEdit =>
    obtain ⟨username, rfl⟩ := (validateArgs_usersEdit args).mp ha
    exact editCmdRun_undetected e username [] h

/-! ## Undetected platform, missing path, and the `users info` stub -/

/-- C3, as stated, fails at `users info`: at the existing root `/srv/none`,
where neither marker can be stat-ed, the invocation of `users info` prints the
not-implemented text and exits with status 0; it logs no error at all. -/
theorem users_info_undetected_exits_zero :
    (sampleEnv "/srv/none" ["/srv/none"]).stat
        ((sampleEnv "/srv/none" ["/srv/none"]).join
          (sampleEnv "/srv/none" ["/srv/none"]).cmsPath "wp-config.php") ≠ .ok ∧
    (sampleEnv "/srv/none" ["/srv/none"]).stat
        ((sampleEnv "/srv/none" ["/srv/none"]).join
          (sampleEnv "/srv/none" ["/srv/none"]).cmsPath "configuration.php") ≠ .ok ∧
    main (sampleEnv "/srv/none" ["/srv/none"]) .usersInfo [] =
      ⟨[.stat "/srv/none", .out "User info functionality not implemented yet.\n"], 0⟩ ∧
    logsOf (main (sampleEnv "/srv/none" ["/srv/none"]) .usersInfo []).trace = [] := by
  refine ⟨by decide, by decide, by decide, by decide⟩

/-- C3, amended. For each of the four commands that need a platform
(`users list`, `users edit`, `info db`, `info version`), whatever the
arguments, at a root where neither marker file can be stat-ed the invocation
exits with status 1 and calls no adapter operation; when the arguments and the
path pass their checks, what it does is exactly the path check, the detection
and the `log.Fatal` of the platform-not-detected message. -/
theorem undetected_platform_fails (e : Env) (cmd : Command) (args : List String)
    (hcmd : cmd ≠ .usersInfo)
    (hw : e.stat (e.join e.cmsPath "wp-config.php") ≠ .ok)
    (hj : e.stat (e.join e.cmsPath "configuration.php") ≠ .ok) :
    (main e cmd args).exitCode = 1 ∧
    adapterCalls (main e cmd args).trace = [] ∧
    (validateArgs cmd args = none → (persistentPreRunE e).1 = none →
      main e cmd args =
        ⟨(persistentPreRunE e).2 ++ (detectCMS e).2 ++ [.log
          "Unable to detect CMS type. Make sure you're in the correct directory or specify the correct path using the -p flag."], 1⟩) := by
  have htag : (detectCMS e).1 = "" := by rw [detectCMS_of_neither e hw hj]
  have hfull : validateArgs cmd args = none → (persistentPreRunE e).1 = none →
      main e cmd args =
        ⟨(persistentPreRunE e).2 ++ (detectCMS e).2 ++ [.log
          "Unable to detect CMS type. Make sure you're in the correct directory or specify the correct path using the -p flag."], 1⟩ := by
    intro ha hp
    rw [main_of_pass e cmd args ha hp, run_undetected e cmd args hcmd ha htag]
    simp [Status.exitCode, undetectedMsg]
  refine ⟨?_, ?_, hfull⟩
  · cases ha : validateArgs cmd args with
    | some m => rw [main_of_bad_args e cmd args m ha]
    | none =>
      cases hp : (persistentPreRunE e).1 with
      | none => rw [hfull ha hp]
      | some m =>
        unfold main
        rw [ha]
        rcases hpre : persistentPreRunE e with ⟨err, t0⟩
        rw [hpre] at hp
        simp only at hp
        subst hp
        rfl
  · cases ha : validateArgs cmd args with
    | some m => rw [main_of_bad_args e cmd args m ha]; rfl
    | none =>
      cases hp : (persistentPreRunE e).1 with
      | none =>
        rw [hfull ha hp]
        have h1 := (persistentPreRunE_trace e).1
        have h2 := detectCMS_no_calls e
        simp only [adapterCalls] at h1 h2 ⊢
        simp [List.filterMap_append, h1, h2]
      | some m =>
        have h1 := (persistentPreRunE_trace e).1
        unfold main
        rw [ha]
        rcases hpre : persistentPreRunE e with ⟨err, t0⟩
        rw [hpre] at hp h1
        simp only at hp h1
        subst hp
        simp only [adapterCalls] at h1 ⊢
        simp [List.filterMap_append, h1]

/-- C3, amended, at the root `/srv/none` holding neither marker, for
`users list`. -/
theorem undetected_platform_fails_witness :
    (main (sampleEnv "/srv/none" ["/srv/none"]) .usersList []).exitCode = 1 ∧
    adapterCalls (main (sampleEnv "/srv/none" ["/srv/none"]) .usersList []).trace = [] ∧
    main (sampleEnv "/srv/none" ["/srv/none"]) .usersList [] =
      ⟨[.stat "/srv/none", .stat "/srv/none/wp-config.php",
        .stat "/srv/none/configuration.php", .log
          "Unable to detect CMS type. Make sure you're in the correct directory or specify the correct path using the -p flag."], 1⟩ :=
  have h := undetected_platform_fails (sampleEnv "/srv/none" ["/srv/none"]) .usersList []
    (by decide) (by decide) (by decide)
  ⟨h.1, h.2.1, h.2.2 (by decide) (by decide)⟩

/-- C4, as stated, fails: the supplied root `srv/file/sub` does not exist,
because `srv/file` is a regular file, and `os.Stat` fails on it with
`ENOTDIR`, of which `os.IsNotExist` is false.  `PersistentPreRunE` returns no
error, detection runs (the two marker paths are stat-ed) and `info db` ends
in the platform-not-detected `log.Fatal`, not in a path-not-found error. -/
theorem not_a_directory_path_passes :
    notDirEnv.cmsPath = "srv/file/sub" ∧
    notDirEnv.stat "srv/file" = .ok ∧
    notDirEnv.stat "srv/file/sub" = .notDir ∧
    persistentPreRunE notDirEnv = (none, [.stat "srv/file/sub"]) ∧
    main notDirEnv .infoDb [] =
      ⟨[.stat "srv/file/sub", .stat "srv/file/sub/wp-config.php",
        .stat "srv/file/sub/configuration.php",
        .log "Unable to detect CMS type. Make sure you're in the correct directory or specify the correct path using the -p flag."],
       1⟩ := by
  refine ⟨by decide, by decide, by decide, by decide, by decide⟩

/-- C4, amended. When `cmsPath` is set and `os.Stat` fails on it with an error
of which `os.IsNotExist` holds, `PersistentPreRunE` returns the error
`The specified CMS path does not exist:` followed by the path, and the
invocation of any command with any arguments exits with status 1, calls no
adapter operation and stats no path other than the root itself, so detection
has not run; with arguments that pass validation the run is exactly the one
`os.Stat` of the root and the `log.Fatal` of that error.  When `cmsPath` is
empty, or `os.Stat` succeeds on it, or `os.Stat` fails on it with any other
error (`ENOTDIR` included), `PersistentPreRunE` returns no error and, the
arguments being valid, the command's handler runs. -/
theorem missing_path_rejected (e : Env) (cmd : Command) (args : List String) :
    (e.cmsPath ≠ "" → e.stat e.cmsPath = .notExist →
      (persistentPreRunE e).1 =
        some ("The specified CMS path does not exist: " ++ e.cmsPath) ∧
      (main e cmd args).exitCode = 1 ∧
      adapterCalls (main e cmd args).trace = [] ∧
      (statPaths (main e cmd args).trace).Sublist [e.cmsPath] ∧
      (validateArgs cmd args = none →
        main e cmd args =
          ⟨[.stat e.cmsPath,
            .log ("The specified CMS path does not exist: " ++ e.cmsPath)], 1⟩)) ∧
    ((e.cmsPath = "" ∨ e.stat e.cmsPath ≠ .notExist) →
      (persistentPreRunE e).1 = none) ∧
    ((e.cmsPath = "" ∨ e.stat e.cmsPath = .ok ∨ e.stat e.cmsPath = .notDir ∨
        e.stat e.cmsPath = .otherError) →
      (persistentPreRunE e).1 = none ∧
      (validateArgs cmd args = none →
        main e cmd args =
          ⟨(persistentPreRunE e).2 ++ (run e cmd args).trace,
            (run e cmd args).status.exitCode⟩)) := by
  refine ⟨fun hp hs => ?_, persistentPreRunE_pass e, fun h => ?_⟩
  · refine ⟨by rw [persistentPreRunE_missing e hp hs], ?_, ?_, ?_,
      fun ha => main_of_missing e cmd args ha hp hs⟩
    · cases ha : validateArgs cmd args with
      | some m => rw [main_of_bad_args e cmd args m ha]
      | none => rw [main_of_missing e cmd args ha hp hs]
    · cases ha : validateArgs cmd args with
      | some m => rw [main_of_bad_args e cmd args m ha]; rfl
      | none => rw [main_of_missing e cmd args ha hp hs]; rfl
    · cases ha : validateArgs cmd args with
      | some m =>
        rw [main_of_bad_args e cmd args m ha]
        simp [statPaths]
      | none =>
        rw [main_of_missing e cmd args ha hp hs]
        simp [statPaths]
  · have hpass : (persistentPreRunE e).1 = none := by
      apply persistentPreRunE_pass
      rcases h with h | h | h | h
      · exact Or.inl h
      · exact Or.inr (by rw [h]; decide)
      · exact Or.inr (by rw [h]; decide)
      · exact Or.inr (by rw [h]; decide)
    exact ⟨hpass, fun ha => main_of_pass e cmd args ha hpass⟩

/-- C4, amended, at the missing root `/srv/gone` for `info db`, at the
existing root `/srv/wp`, and at the root `srv/file/sub` below a regular
file. -/
theorem missing_path_rejected_witness :
    ((persistentPreRunE (sampleEnv "/srv/gone" [])).1 =
        some "The specified CMS path does not exist: /srv/gone" ∧
      main (sampleEnv "/srv/gone" []) .infoDb [] =
        ⟨[.stat "/srv/gone", .log "The specified CMS path does not exist: /srv/gone"], 1⟩) ∧
    (persistentPreRunE (sampleEnv "/srv/wp" ["/srv/wp", "/srv/wp/wp-config.php"])).1 = none ∧
    (persistentPreRunE notDirEnv).1 = none :=
  have h := (missing_path_rejected (sampleEnv "/srv/gone" []) .infoDb []).1
    (by decide) (by decide)
  ⟨⟨h.1, h.2.2.2.2 (by decide)⟩,
   (missing_path_rejected (sampleEnv "/srv/wp" ["/srv/wp", "/srv/wp/wp-config.php"])
      .infoDb []).2.1 (Or.inr (by decide)),
   ((missing_path_rejected notDirEnv .infoDb []).2.2 (Or.inr (Or.inr (Or.inl (by decide))))).1⟩

/-- C10, as stated, fails: at the supplied root `/srv/gone`, which `os.Stat`
reports missing, the invocation of `users info` stops at the pre-run check;
it prints nothing to standard output and exits with status 1. -/
theorem users_info_missing_path_example :
    (sampleEnv "/srv/gone" []).cmsPath = "/srv/gone" ∧
    (sampleEnv "/srv/gone" []).stat "/srv/gone" = .notExist ∧
    main (sampleEnv "/srv/gone" []) .usersInfo [] =
      ⟨[.stat "/srv/gone", .log "The specified CMS path does not exist: /srv/gone"], 1⟩ ∧
    stdoutOf (main (sampleEnv "/srv/gone" []) .usersInfo []).trace = [] := by
  refine ⟨by decide, by decide, by decide, by decide⟩

/-- C10, amended. In every environment the `users info` handler does one
thing: it prints the line `User info functionality not implemented yet.` and
returns; it makes no `os.Stat` call, so it does not run detection, calls no
adapter operation and logs no error.  For every root path that passes the
pre-run check (it is empty, or `os.Stat` does not report it missing) and
every filesystem state, the invocation of `users info` prints that line and
nothing else, exits with status 0, calls no adapter and stats nothing but the
root.  For a root path that `os.Stat` reports missing the invocation stops at
the pre-run check with status 1 and the path-not-found error. -/
theorem users_info_not_implemented (e : Env) (args : List String) :
    userInfoCmdRun e =
      ⟨[.out "User info functionality not implemented yet.\n"], .returned⟩ ∧
    run e .usersInfo args =
      ⟨[.out "User info functionality not implemented yet.\n"], .returned⟩ ∧
    statPaths (run e .usersInfo args).trace = [] ∧
    adapterCalls (run e .usersInfo args).trace = [] ∧
    logsOf (run e .usersInfo args).trace = [] ∧
    ((e.cmsPath = "" ∨ e.stat e.cmsPath ≠ .notExist) →
      main e .usersInfo args =
        ⟨(persistentPreRunE e).2 ++
          [.out "User info functionality not implemented yet.\n"], 0⟩ ∧
      stdoutOf (main e .usersInfo args).trace =
        ["User info functionality not implemented yet.\n"] ∧
      logsOf (main e .usersInfo args).trace = [] ∧
      adapterCalls (main e .usersInfo args).trace = [] ∧
      (statPaths (main e .usersInfo args).trace).Sublist [e.cmsPath]) ∧
    (e.cmsPath ≠ "" → e.stat e.cmsPath = .notExist →
      main e .usersInfo args =
        ⟨[.stat e.cmsPath,
          .log ("The specified CMS path does not exist: " ++ e.cmsPath)], 1⟩) := by
  refine ⟨rfl, rfl, rfl, rfl, rfl, fun h => ?_,
    fun hp hs => main_of_missing e .usersInfo args rfl hp hs⟩
  have hp := persistentPreRunE_pass e h
  have hm : main e .usersInfo args =
      ⟨(persistentPreRunE e).2 ++
        [.out "User info functionality not implemented yet.\n"], 0⟩ := by
    rw [main_of_pass e .usersInfo args rfl hp]
    rfl
  have h1 := (persistentPreRunE_trace e).1
  have h2 := (persistentPreRunE_trace e).2
  obtain ⟨q1, _, q3⟩ := persistentPreRunE_quiet e
  refine ⟨hm, ?_, ?_, ?_, ?_⟩
  · rw [hm]
    simp only [stdoutOf] at q3 ⊢
    simp [List.filterMap_append, q3]
  · rw [hm]
    simp only [logsOf] at q1 ⊢
    simp [List.filterMap_append, q1]
  · rw [hm]
    simp only [adapterCalls] at h1 ⊢
    simp [List.filterMap_append, h1]
  · rw [hm]
    simp only [statPaths] at h2 ⊢
    simpa [List.filterMap_append] using h2

/-- C10, amended, at roots holding the wordpress marker, the joomla marker
and neither, and with no `--path` at all. -/
theorem users_info_not_implemented_witness :
    main (sampleEnv "/srv/wp" ["/srv/wp", "/srv/wp/wp-config.php"]) .usersInfo [] =
      ⟨[.stat "/srv/wp", .out "User info functionality not implemented yet.\n"], 0⟩ ∧
    main (sampleEnv "/srv/j" ["/srv/j", "/srv/j/configuration.php"]) .usersInfo [] =
      ⟨[.stat "/srv/j", .out "User info functionality not implemented yet.\n"], 0⟩ ∧
    main (sampleEnv "/srv/none" ["/srv/none"]) .usersInfo [] =
      ⟨[.stat "/srv/none", .out "User info functionality not implemented yet.\n"], 0⟩ ∧
    main (sampleEnv "" []) .usersInfo [] =
      ⟨[.out "User info functionality not implemented yet.\n"], 0⟩ :=
  ⟨((users_info_not_implemented
      (sampleEnv "/srv/wp" ["/srv/wp", "/srv/wp/wp-config.php"]) []).2.2.2.2.2.1
      (Or.inr (by decide))).1,
   ((users_info_not_implemented
      (sampleEnv "/srv/j" ["/srv/j", "/srv/j/configuration.php"]) []).2.2.2.2.2.1
      (Or.inr (by decide))).1,
   ((users_info_not_implemented
      (sampleEnv "/srv/none" ["/srv/none"]) []).2.2.2.2.2.1 (Or.inr (by decide))).1,
   ((users_info_not_implemented (sampleEnv "" []) []).2.2.2.2.2.1 (Or.inl rfl)).1⟩

/-! ## Handlers on a detected platform: what each one does -/

theorem detectCMS_tag (e : Env) :
    (detectCMS e).1 = "wordpress" ∨ (detectCMS e).1 = "joomla" ∨ (detectCMS e).1 = "" := by
  rcases detectCMS_cases e with ⟨_, ha⟩ | ⟨_, _, ha⟩ | ⟨_, _, ha⟩ <;> simp [ha]

theorem listCmdRun_wordpress (e : Env) (h : (detectCMS e).1 = "wordpress") :
    listCmdRun e =
      ⟨(detectCMS e).2 ++
        [.call (.wordpressProcessWordPress e.cmsPath) (e.wordpressProcessWordPress e.cmsPath)] ++
        (match e.wordpressProcessWordPress e.cmsPath with
          | some m => [.log ("Error processing wordpress: " ++ m)]
          | none => []), .returned⟩ := by
  unfold listCmdRun
  rcases hd : detectCMS e with ⟨tag, t0⟩
  rw [hd] at h
  simp only at h
  subst h
  cases hr : e.wordpressProcessWordPress e.cmsPath <;> simp [hr]

theorem listCmdRun_joomla (e : Env) (h : (detectCMS e).1 = "joomla") :
    listCmdRun e =
      ⟨(detectCMS e).2 ++
        (match e.joomlaProcessJoomla e.cmsPath with
          | (_, _, _, some m) =>
            [.call (.joomlaProcessJoomla e.cmsPath) (some m),
             .log ("Error processing joomla: " ++ m)]
          | (db, cfg, pfx, none) =>
            [.call (.joomlaProcessJoomla e.cmsPath) none,
             .out ("Joomla DB Name: " ++ cfg.DBName ++ "\n"),
             .out ("Joomla DB User: " ++ cfg.User ++ "\n"),
             .out ("Identified Joomla table prefixes: " ++ pfx ++ "\n"),
             .call (.joomlaListUsers db pfx) (e.joomlaListUsers db pfx).2] ++
            (match e.joomlaListUsers db pfx with
              | (_, some m) =>
                [.log ("list users for prefix " ++ pfx ++ ": " ++ m),
                 .out ("list users for prefix " ++ pfx ++ ": " ++ m ++ "\n")]
              | (users, none) =>
                Event.out ("\nUsers for prefix '" ++ pfx ++ "':\n") ::
                  users.map (fun u => Event.out (userLine u)))), .returned⟩ := by
  unfold listCmdRun
  rcases hd : detectCMS e with ⟨tag, t0⟩
  rw [hd] at h
  simp only at h
  subst h
  rcases hr : e.joomlaProcessJoomla e.cmsPath with ⟨db, cfg, pfx, err2⟩
  cases err2 with
  | some m => simp
  | none =>
    rcases hl : e.joomlaListUsers db pfx with ⟨users, err3⟩
    cases err3 <;> simp [hl]

theorem editCmdRun_wordpress (e : Env) (username : String) (rest : List String)
    (h : (detectCMS e).1 = "wordpress") :
    editCmdRun e (username :: rest) =
      ⟨(detectCMS e).2 ++
        [.call (.wordpressEditUser e.cmsPath username)
          (e.wordpressEditUser e.cmsPath username)] ++
        (match e.wordpressEditUser e.cmsPath username with
          | some m => [.log ("Error editing wordpress user: " ++ m)]
          | none => []), .returned⟩ := by
  unfold editCmdRun
  rcases hd : detectCMS e with ⟨tag, t0⟩
  rw [hd] at h
  simp only at h
  subst h
  cases hr : e.wordpressEditUser e.cmsPath username <;> simp [hr]

theorem editCmdRun_joomla (e : Env) (username : String) (rest : List String)
    (h : (detectCMS e).1 = "joomla") :
    editCmdRun e (username :: rest) =
      ⟨(detectCMS e).2 ++
        (match e.joomlaProcessJoomla e.cmsPath with
          | (_, _, _, some m) =>
            [.call (.joomlaProcessJoomla e.cmsPath) (some m),
             .log ("Error editing joomla user: " ++ m)]
          | (db, _, pfx, none) =>
            [.call (.joomlaProcessJoomla e.cmsPath) none,
             .call (.joomlaEditUser db pfx e.cmsPath username)
               (e.joomlaEditUser db pfx e.cmsPath username)] ++
            (match e.joomlaEditUser db pfx e.cmsPath username with
              | some m => [.log ("Error editing joomla user: " ++ m)]
              | none => [])), .returned⟩ := by
  unfold editCmdRun
  rcases hd : detectCMS e with ⟨tag, t0⟩
  rw [hd] at h
  simp only at h
  subst h
  rcases hr : e.joomlaProcessJoomla e.cmsPath with ⟨db, cfg, pfx, err2⟩
  cases err2 with
  | some m => simp
  | none => cases hl : e.joomlaEditUser db pfx e.cmsPath username <;> simp [hl]

theorem dbCmdRun_wordpress (e : Env) (h : (detectCMS e).1 = "wordpress") :
    dbCmdRun e =
      ⟨(detectCMS e).2 ++
        [.call (.wordpressShowInfo e.cmsPath) (e.wordpressShowInfo e.cmsPath)] ++
        (match e.wordpressShowInfo e.cmsPath with
          | some m => [.log ("Error showing wordpress info: " ++ m)]
          | none => []), .returned⟩ := by
  unfold dbCmdRun
  rcases hd : detectCMS e with ⟨tag, t0⟩
  rw [hd] at h
  simp only at h
  subst h
  cases hr : e.wordpressShowInfo e.cmsPath <;> simp [hr]

theorem dbCmdRun_joomla (e : Env) (h : (detectCMS e).1 = "joomla") :
    dbCmdRun e =
      ⟨(detectCMS e).2 ++
        [.call (.joomlaShowInfo e.cmsPath) (e.joomlaShowInfo e.cmsPath)] ++
        (match e.joomlaShowInfo e.cmsPath with
          | some m => [.log ("Error showing joomla info: " ++ m)]
          | none => []), .returned⟩ := by
  unfold dbCmdRun
  rcases hd : detectCMS e with ⟨tag, t0⟩
  rw [hd] at h
  simp only at h
  subst h
  cases hr : e.joomlaShowInfo e.cmsPath <;> simp [hr]

theorem versionCmdRun_wordpress (e : Env) (h : (detectCMS e).1 = "wordpress") :
    versionCmdRun e =
      ⟨(detectCMS e).2 ++
        [.call (.wordpressGetVersion e.cmsPath) (e.wordpressGetVersion e.cmsPath).2] ++
        (match e.wordpressGetVersion e.cmsPath with
          | (_, some m) => [.log ("Error showing wordpress version: " ++ m)]
          | (v, none) => [.out ("wordpress Version: " ++ v ++ "\n")]), .returned⟩ := by
  unfold versionCmdRun
  rcases hd : detectCMS e with ⟨tag, t0⟩
  rw [hd] at h
  simp only at h
  subst h
  rcases hr : e.wordpressGetVersion e.cmsPath with ⟨v, er⟩
  cases er <;> simp

theorem versionCmdRun_joomla (e : Env) (h : (detectCMS e).1 = "joomla") :
    versionCmdRun e =
      ⟨(detectCMS e).2 ++
        [.call (.joomlaGetVersion e.cmsPath) (e.joomlaGetVersion e.cmsPath).2.2] ++
        (match e.joomlaGetVersion e.cmsPath with
          | (_, _, some m) => [.log ("Error showing joomla version: " ++ m)]
          | (v, rel, none) =>
            [.out ("joomla Version: " ++ v ++ "\n"), .out ("Release: " ++ rel ++ "\n")]),
        .returned⟩ := by
  unfold versionCmdRun
  rcases hd : detectCMS e with ⟨tag, t0⟩
  rw [hd] at h
  simp only at h
  subst h
  rcases hr : e.joomlaGetVersion e.cmsPath with ⟨v, rel, er⟩
  cases er <;> simp

/-- Lines written to standard output are neither log lines, nor adapter
calls, nor `os.Stat` calls. -/
theorem filters_map_out {α : Type} (f : α → String) (xs : List α) :
    logsOf (xs.map (fun u => Event.out (f u))) = [] ∧
    callErrors (xs.map (fun u => Event.out (f u))) = [] ∧
    adapterCalls (xs.map (fun u => Event.out (f u))) = [] ∧
    statPaths (xs.map (fun u => Event.out (f u))) = [] ∧
    stdoutOf (xs.map (fun u => Event.out (f u))) = xs.map f := by
  induction xs with
  | nil => simp [logsOf, callErrors, adapterCalls, statPaths, stdoutOf]
  | cons x xs ih =>
    simp only [logsOf, callErrors, adapterCalls, statPaths, stdoutOf] at ih ⊢
    simp [List.filterMap_cons, ih]

/-- On a detected platform every handler returns; each error an adapter call
returned ends a log line; there is one log line per failed call and at most
one failed call. -/
theorem run_detected_facts (e : Env) (cmd : Command) (args : List String)
    (ha : validateArgs cmd args = none) (hd : (detectCMS e).1 ≠ "") :
    (run e cmd args).status = .returned ∧
    (∀ m ∈ callErrors (run e cmd args).trace,
      ∃ pre, pre ++ m ∈ logsOf (run e cmd args).trace) ∧
    (logsOf (run e cmd args).trace).length = (callErrors (run e cmd args).trace).length ∧
    (callErrors (run e cmd args).trace).length ≤ 1 := by
  rcases detectCMS_cases e with ⟨_, hc⟩ | ⟨_, _, hc⟩ | ⟨_, _, hc⟩
  · have ht : (detectCMS e).1 = "wordpress" := by rw [hc]
    cases cmd with
    | usersInfo => simp [run, userInfoCmdRun, callErrors, logsOf]
    | usersList =>
      rw [run, listCmdRun_wordpress e ht, hc]
      cases hr : e.wordpressProcessWordPress e.cmsPath <;> simp [callErrors, logsOf]
    | usersEdit =>
      obtain ⟨username, rfl⟩ := (validateArgs_usersEdit args).mp ha
      rw [run, editCmdRun_wordpress e username [] ht, hc]
      cases hr : e.wordpressEditUser e.cmsPath username <;> simp [callErrors, logsOf]
    | infoDb =>
      rw [run, dbCmdRun_wordpress e ht, hc]
      cases hr : e.wordpressShowInfo e.cmsPath <;> simp [callErrors, logsOf]
    | infoVersion =>
      rw [run, versionCmdRun_wordpress e ht, hc]
      rcases hr : e.wordpressGetVersion e.cmsPath with ⟨v, er⟩
      cases er <;> simp [callErrors, logsOf]
  · have ht : (detectCMS e).1 = "joomla" := by rw [hc]
    cases cmd with
    | usersInfo => simp [run, userInfoCmdRun, callErrors, logsOf]
    | usersList =>
      rw [run, listCmdRun_joomla e ht, hc]
      rcases hr : e.joomlaProcessJoomla e.cmsPath with ⟨db, cfg, pfx, err2⟩
      cases err2 with
      | some m => simp [callErrors, logsOf]
      | none =>
        rcases hl : e.joomlaListUsers db pfx with ⟨users, err3⟩
        have h1 := (filters_map_out userLine users).1
        have h2 := (filters_map_out userLine users).2.1
        simp only [logsOf, callErrors, List.filterMap_map] at h1 h2
        cases err3 <;> simp [callErrors, logsOf, hl, h1, h2]
    | usersEdit =>
      obtain ⟨username, rfl⟩ := (validateArgs_usersEdit args).mp ha
      rw [run, editCmdRun_joomla e username [] ht, hc]
      rcases hr : e.joomlaProcessJoomla e.cmsPath with ⟨db, cfg, pfx, err2⟩
      cases err2 with
      | some m => simp [callErrors, logsOf]
      | none =>
        cases hl : e.joomlaEditUser db pfx e.cmsPath username <;>
          simp [callErrors, logsOf, hl]
    | infoDb =>
      rw [run, dbCmdRun_joomla e ht, hc]
      cases hr : e.joomlaShowInfo e.cmsPath <;> simp [callErrors, logsOf]
    | infoVersion =>
      rw [run, versionCmdRun_joomla e ht, hc]
      rcases hr : e.joomlaGetVersion e.cmsPath with ⟨v, rel, er⟩
      cases er <;> simp [callErrors, logsOf]
  · exact absurd (by rw [hc]) hd

/-- The number of adapter operations each handler invokes on a detected
platform. -/
theorem run_detected_calls (e : Env) (cmd : Command) (args : List String)
    (ha : validateArgs cmd args = none) (hd : (detectCMS e).1 ≠ "") :
    (cmd = .usersInfo → adapterCalls (run e cmd args).trace = []) ∧
    (cmd ≠ .usersInfo →
      ((detectCMS e).1 = "joomla" ∧ (cmd = .usersList ∨ cmd = .usersEdit) ∧
          (e.joomlaProcessJoomla e.cmsPath).2.2.2 = none →
        (adapterCalls (run e cmd args).trace).length = 2) ∧
      (¬((detectCMS e).1 = "joomla" ∧ (cmd = .usersList ∨ cmd = .usersEdit) ∧
          (e.joomlaProcessJoomla e.cmsPath).2.2.2 = none) →
        (adapterCalls (run e cmd args).trace).length = 1)) := by
  rcases detectCMS_cases e with ⟨_, hc⟩ | ⟨_, _, hc⟩ | ⟨_, _, hc⟩
  · have ht : (detectCMS e).1 = "wordpress" := by rw [hc]
    cases cmd with
    | usersInfo => simp [run, userInfoCmdRun, adapterCalls]
    | usersList =>
      rw [run, listCmdRun_wordpress e ht, hc]
      cases hr : e.wordpressProcessWordPress e.cmsPath <;> simp [adapterCalls]
    | usersEdit =>
      obtain ⟨username, rfl⟩ := (validateArgs_usersEdit args).mp ha
      rw [run, editCmdRun_wordpress e username [] ht, hc]
      cases hr : e.wordpressEditUser e.cmsPath username <;> simp [adapterCalls]
    | infoDb =>
      rw [run, dbCmdRun_wordpress e ht, hc]
      cases hr : e.wordpressShowInfo e.cmsPath <;> simp [adapterCalls]
    | infoVersion =>
      rw [run, versionCmdRun_wordpress e ht, hc]
      rcases hr : e.wordpressGetVersion e.cmsPath with ⟨v, er⟩
      cases er <;> simp [adapterCalls]
  · have ht : (detectCMS e).1 = "joomla" := by rw [hc]
    cases cmd with
    | usersInfo => simp [run, userInfoCmdRun, adapterCalls]
    | usersList =>
      rw [run, listCmdRun_joomla e ht, hc]
      rcases hr : e.joomlaProcessJoomla e.cmsPath with ⟨db, cfg, pfx, err2⟩
      cases err2 with
      | some m => simp [adapterCalls]
      | none =>
        rcases hl : e.joomlaListUsers db pfx with ⟨users, err3⟩
        have h1 := (filters_map_out userLine users).2.2.1
        simp only [adapterCalls, List.filterMap_map] at h1
        cases err3 <;> simp [adapterCalls, hl, h1]
    | usersEdit =>
      obtain ⟨username, rfl⟩ := (validateArgs_usersEdit args).mp ha
      rw [run, editCmdRun_joomla e username [] ht, hc]
      rcases hr : e.joomlaProcessJoomla e.cmsPath with ⟨db, cfg, pfx, err2⟩
      cases err2 with
      | some m => simp [adapterCalls]
      | none =>
        cases hl : e.joomlaEditUser db pfx e.cmsPath username <;>
          simp [adapterCalls, hl]
    | infoDb =>
      rw [run, dbCmdRun_joomla e ht, hc]
      cases hr : e.joomlaShowInfo e.cmsPath <;> simp [adapterCalls]
    | infoVersion =>
      rw [run, versionCmdRun_joomla e ht, hc]
      rcases hr : e.joomlaGetVersion e.cmsPath with ⟨v, rel, er⟩
      cases er <;> simp [adapterCalls]
  · exact absurd (by rw [hc]) hd

/-- Lines written to standard output are not adapter calls. -/
theorem callResults_map_out {α : Type} (f : α → String) (xs : List α) :
    callResults (xs.map (fun u => Event.out (f u))) = [] := by
  induction xs with
  | nil => simp [callResults]
  | cons x xs ih =>
    simp only [callResults] at ih ⊢
    simp [List.filterMap_cons, ih]

/-- Which adapter operation each wordpress handler invokes, with what it
returned, and what the handler logs. -/
theorem run_wordpress_dispatch (e : Env) (args : List String) (username : String)
    (ht : (detectCMS e).1 = "wordpress") :
    (callResults (run e .usersList args).trace =
        [(.wordpressProcessWordPress e.cmsPath, e.wordpressProcessWordPress e.cmsPath)] ∧
      logsOf (run e .usersList args).trace =
        (e.wordpressProcessWordPress e.cmsPath).toList.map
          (fun m => "Error processing wordpress: " ++ m)) ∧
    (callResults (run e .usersEdit [username]).trace =
        [(.wordpressEditUser e.cmsPath username, e.wordpressEditUser e.cmsPath username)] ∧
      logsOf (run e .usersEdit [username]).trace =
        (e.wordpressEditUser e.cmsPath username).toList.map
          (fun m => "Error editing wordpress user: " ++ m)) ∧
    (callResults (run e .infoDb args).trace =
        [(.wordpressShowInfo e.cmsPath, e.wordpressShowInfo e.cmsPath)] ∧
      logsOf (run e .infoDb args).trace =
        (e.wordpressShowInfo e.cmsPath).toList.map
          (fun m => "Error showing wordpress info: " ++ m)) ∧
    (callResults (run e .infoVersion args).trace =
        [(.wordpressGetVersion e.cmsPath, (e.wordpressGetVersion e.cmsPath).2)] ∧
      logsOf (run e .infoVersion args).trace =
        (e.wordpressGetVersion e.cmsPath).2.toList.map
          (fun m => "Error showing wordpress version: " ++ m)) := by
  rcases detectCMS_cases e with ⟨_, hc⟩ | ⟨_, _, hc⟩ | ⟨_, _, hc⟩
  · refine ⟨?_, ?_, ?_, ?_⟩
    · rw [run, listCmdRun_wordpress e ht, hc]
      cases hr : e.wordpressProcessWordPress e.cmsPath <;> simp [callResults, logsOf]
    · rw [run, editCmdRun_wordpress e username [] ht, hc]
      cases hr : e.wordpressEditUser e.cmsPath username <;> simp [callResults, logsOf]
    · rw [run, dbCmdRun_wordpress e ht, hc]
      cases hr : e.wordpressShowInfo e.cmsPath <;> simp [callResults, logsOf]
    · rw [run, versionCmdRun_wordpress e ht, hc]
      rcases hr : e.wordpressGetVersion e.cmsPath with ⟨v, er⟩
      cases er <;> simp [callResults, logsOf]
  · rw [hc] at ht
    simp at ht
  · rw [hc] at ht
    simp at ht

/-- Which adapter operations each joomla handler invokes, with what they
returned, and what the handler logs. -/
theorem run_joomla_dispatch (e : Env) (args : List String) (username : String)
    (ht : (detectCMS e).1 = "joomla") :
    (∀ db cfg pfx, e.joomlaProcessJoomla e.cmsPath = (db, cfg, pfx, none) →
      (callResults (run e .usersList args).trace =
          [(.joomlaProcessJoomla e.cmsPath, none),
           (.joomlaListUsers db pfx, (e.joomlaListUsers db pfx).2)] ∧
        logsOf (run e .usersList args).trace =
          (e.joomlaListUsers db pfx).2.toList.map
            (fun m => "list users for prefix " ++ pfx ++ ": " ++ m)) ∧
      (callResults (run e .usersEdit [username]).trace =
          [(.joomlaProcessJoomla e.cmsPath, none),
           (.joomlaEditUser db pfx e.cmsPath username,
             e.joomlaEditUser db pfx e.cmsPath username)] ∧
        logsOf (run e .usersEdit [username]).trace =
          (e.joomlaEditUser db pfx e.cmsPath username).toList.map
            (fun m => "Error editing joomla user: " ++ m))) ∧
    (∀ db cfg pfx m, e.joomlaProcessJoomla e.cmsPath = (db, cfg, pfx, some m) →
      (callResults (run e .usersList args).trace =
          [(.joomlaProcessJoomla e.cmsPath, some m)] ∧
        logsOf (run e .usersList args).trace = ["Error processing joomla: " ++ m]) ∧
      (callResults (run e .usersEdit [username]).trace =
          [(.joomlaProcessJoomla e.cmsPath, some m)] ∧
        logsOf (run e .usersEdit [username]).trace =
          ["Error editing joomla user: " ++ m])) ∧
    (callResults (run e .infoDb args).trace =
        [(.joomlaShowInfo e.cmsPath, e.joomlaShowInfo e.cmsPath)] ∧
      logsOf (run e .infoDb args).trace =
        (e.joomlaShowInfo e.cmsPath).toList.map
          (fun m => "Error showing joomla info: " ++ m)) ∧
    (callResults (run e .infoVersion args).trace =
        [(.joomlaGetVersion e.cmsPath, (e.joomlaGetVersion e.cmsPath).2.2)] ∧
      logsOf (run e .infoVersion args).trace =
        (e.joomlaGetVersion e.cmsPath).2.2.toList.map
          (fun m => "Error showing joomla version: " ++ m)) := by
  rcases detectCMS_cases e with ⟨_, hc⟩ | ⟨_, _, hc⟩ | ⟨_, _, hc⟩
  · rw [hc] at ht
    simp at ht
  · refine ⟨?_, ?_, ?_, ?_⟩
    · intro db cfg pfx hp
      constructor
      · rw [run, listCmdRun_joomla e ht, hc, hp]
        rcases hl : e.joomlaListUsers db pfx with ⟨users, err3⟩
        have h1 := (filters_map_out userLine users).1
        have h2 := callResults_map_out userLine users
        simp only [logsOf, callResults, List.filterMap_map] at h1 h2
        cases err3 <;> simp [callResults, logsOf, hl, h1, h2]
      · rw [run, editCmdRun_joomla e username [] ht, hc, hp]
        cases hr : e.joomlaEditUser db pfx e.cmsPath username <;>
          simp [callResults, logsOf, hr]
    · intro db cfg pfx m hp
      constructor
      · rw [run, listCmdRun_joomla e ht, hc, hp]
        simp [callResults, logsOf]
      · rw [run, editCmdRun_joomla e username [] ht, hc, hp]
        simp [callResults, logsOf]
    · rw [run, dbCmdRun_joomla e ht, hc]
      cases hr : e.joomlaShowInfo e.cmsPath <;> simp [callResults, logsOf]
    · rw [run, versionCmdRun_joomla e ht, hc]
      rcases hr : e.joomlaGetVersion e.cmsPath with ⟨v, rel, er⟩
      cases er <;> simp [callResults, logsOf]
  · rw [hc] at ht
    simp at ht

/-! ## Adapter failures and dispatch -/

/-- C5, as stated, fails: at the root `/srv/wp`, detected as wordpress, with
`wordpress.ProcessWordPress` returning the error `db down`, the invocation of
`users list` logs the error and exits with status 0. -/
theorem adapter_error_exit_zero_example :
    (detectCMS (failingEnv "/srv/wp" ["/srv/wp", "/srv/wp/wp-config.php"] "db down")).1 =
      "wordpress" ∧
    (failingEnv "/srv/wp" ["/srv/wp", "/srv/wp/wp-config.php"] "db down").wordpressProcessWordPress
      "/srv/wp" = some "db down" ∧
    main (failingEnv "/srv/wp" ["/srv/wp", "/srv/wp/wp-config.php"] "db down") .usersList [] =
      ⟨[.stat "/srv/wp", .stat "/srv/wp/wp-config.php",
        .call (.wordpressProcessWordPress "/srv/wp") (some "db down"),
        .log "Error processing wordpress: db down"], 0⟩ := by
  refine ⟨by decide, by decide, by decide⟩

/-- C5, amended. For every command and every detected platform, when the
arguments and the path pass their checks the invocation exits with status 0
whatever the adapter operations return; every error an adapter operation
returned is written to the log, at the end of a log line, and that is all
that happens to it. -/
theorem adapter_error_logged_exit_zero (e : Env) (cmd : Command) (args : List String)
    (ha : validateArgs cmd args = none) (hp : (persistentPreRunE e).1 = none)
    (hd : (detectCMS e).1 ≠ "") :
    (main e cmd args).exitCode = 0 ∧
    ∀ m ∈ callErrors (main e cmd args).trace,
      ∃ pre, pre ++ m ∈ logsOf (main e cmd args).trace := by
  obtain ⟨hs, hl, _, _⟩ := run_detected_facts e cmd args ha hd
  obtain ⟨q1, q2, _⟩ := persistentPreRunE_quiet e
  rw [main_of_pass e cmd args ha hp]
  refine ⟨by simp [hs, Status.exitCode], ?_⟩
  intro m hm
  have hm2 : m ∈ callErrors (run e cmd args).trace := by
    simp only [callErrors] at q2 hm ⊢
    simpa [List.filterMap_append, q2] using hm
  obtain ⟨pre, hpre⟩ := hl m hm2
  refine ⟨pre, ?_⟩
  simp only [logsOf] at q1 hpre ⊢
  simpa [List.filterMap_append, q1] using hpre

/-- C5, amended, at the wordpress root `/srv/wp` with every adapter operation
failing with `db down`, for `users list`. -/
theorem adapter_error_logged_exit_zero_witness :
    (main (failingEnv "/srv/wp" ["/srv/wp", "/srv/wp/wp-config.php"] "db down")
      .usersList []).exitCode = 0 ∧
    ∀ m ∈ callErrors (main (failingEnv "/srv/wp" ["/srv/wp", "/srv/wp/wp-config.php"] "db down")
        .usersList []).trace,
      ∃ pre, pre ++ m ∈ logsOf (main
        (failingEnv "/srv/wp" ["/srv/wp", "/srv/wp/wp-config.php"] "db down")
        .usersList []).trace :=
  adapter_error_logged_exit_zero
    (failingEnv "/srv/wp" ["/srv/wp", "/srv/wp/wp-config.php"] "db down") .usersList []
    (by decide) (by decide) (by decide)

/-- C6, as stated, fails: on the joomla root `/srv/j` the handler of
`users list` invokes two adapter operations, `ProcessJoomla` and `ListUsers`,
and on the wordpress root `/srv/wp` the handler of `users info` invokes
none. -/
theorem dispatch_not_exactly_one_example :
    (detectCMS (sampleEnv "/srv/j" ["/srv/j", "/srv/j/configuration.php"])).1 = "joomla" ∧
    adapterCalls (run (sampleEnv "/srv/j" ["/srv/j", "/srv/j/configuration.php"])
      .usersList []).trace =
      [.joomlaProcessJoomla "/srv/j", .joomlaListUsers 1 "jos_"] ∧
    (detectCMS (sampleEnv "/srv/wp" ["/srv/wp", "/srv/wp/wp-config.php"])).1 = "wordpress" ∧
    adapterCalls (run (sampleEnv "/srv/wp" ["/srv/wp", "/srv/wp/wp-config.php"])
      .usersInfo []).trace = [] := by
  refine ⟨by decide, by decide, by decide, by decide⟩

/-- C6, amended. On a detected platform, with arguments that passed
validation, every handler returns (it neither stops the process nor panics).
`users info` invokes no adapter operation.  On wordpress each other handler
invokes exactly one operation: `ProcessWordPress` for `users list`,
`EditUser` for `users edit`, `ShowInfo` for `info db`, `GetVersion` for
`info version`, each with the root path (and the username).  On joomla
`info db` invokes `ShowInfo` and `info version` invokes `GetVersion`, one
operation each, while `users list` and `users edit` invoke `ProcessJoomla`
and, only when it returned no error, a second operation, `ListUsers` or
`EditUser`, with the handle and prefix `ProcessJoomla` gave.  The run has one
result: the log holds the error of the operation that failed, in one line, and
is empty when no operation failed; at most one invoked operation fails. -/
theorem dispatch_total (e : Env) (cmd : Command) (args : List String) (username : String)
    (ha : validateArgs cmd args = none) (hd : (detectCMS e).1 ≠ "") :
    (run e cmd args).status = .returned ∧
    callResults (run e .usersInfo args).trace = [] ∧
    ((detectCMS e).1 = "wordpress" →
      (callResults (run e .usersList args).trace =
          [(.wordpressProcessWordPress e.cmsPath, e.wordpressProcessWordPress e.cmsPath)] ∧
        logsOf (run e .usersList args).trace =
          (e.wordpressProcessWordPress e.cmsPath).toList.map
            (fun m => "Error processing wordpress: " ++ m)) ∧
      (callResults (run e .usersEdit [username]).trace =
          [(.wordpressEditUser e.cmsPath username, e.wordpressEditUser e.cmsPath username)] ∧
        logsOf (run e .usersEdit [username]).trace =
          (e.wordpressEditUser e.cmsPath username).toList.map
            (fun m => "Error editing wordpress user: " ++ m)) ∧
      (callResults (run e .infoDb args).trace =
          [(.wordpressShowInfo e.cmsPath, e.wordpressShowInfo e.cmsPath)] ∧
        logsOf (run e .infoDb args).trace =
          (e.wordpressShowInfo e.cmsPath).toList.map
            (fun m => "Error showing wordpress info: " ++ m)) ∧
      (callResults (run e .infoVersion args).trace =
          [(.wordpressGetVersion e.cmsPath, (e.wordpressGetVersion e.cmsPath).2)] ∧
        logsOf (run e .infoVersion args).trace =
          (e.wordpressGetVersion e.cmsPath).2.toList.map
            (fun m => "Error showing wordpress version: " ++ m))) ∧
    ((detectCMS e).1 = "joomla" →
      (∀ db cfg pfx, e.joomlaProcessJoomla e.cmsPath = (db, cfg, pfx, none) →
        (callResults (run e .usersList args).trace =
            [(.joomlaProcessJoomla e.cmsPath, none),
             (.joomlaListUsers db pfx, (e.joomlaListUsers db pfx).2)] ∧
          logsOf (run e .usersList args).trace =
            (e.joomlaListUsers db pfx).2.toList.map
              (fun m => "list users for prefix " ++ pfx ++ ": " ++ m)) ∧
        (callResults (run e .usersEdit [username]).trace =
            [(.joomlaProcessJoomla e.cmsPath, none),
             (.joomlaEditUser db pfx e.cmsPath username,
               e.joomlaEditUser db pfx e.cmsPath username)] ∧
          logsOf (run e .usersEdit [username]).trace =
            (e.joomlaEditUser db pfx e.cmsPath username).toList.map
              (fun m => "Error editing joomla user: " ++ m))) ∧
      (∀ db cfg pfx m, e.joomlaProcessJoomla e.cmsPath = (db, cfg, pfx, some m) →
        (callResults (run e .usersList args).trace =
            [(.joomlaProcessJoomla e.cmsPath, some m)] ∧
          logsOf (run e .usersList args).trace = ["Error processing joomla: " ++ m]) ∧
        (callResults (run e .usersEdit [username]).trace =
            [(.joomlaProcessJoomla e.cmsPath, some m)] ∧
          logsOf (run e .usersEdit [username]).trace =
            ["Error editing joomla user: " ++ m])) ∧
      (callResults (run e .infoDb args).trace =
          [(.joomlaShowInfo e.cmsPath, e.joomlaShowInfo e.cmsPath)] ∧
        logsOf (run e .infoDb args).trace =
          (e.joomlaShowInfo e.cmsPath).toList.map
            (fun m => "Error showing joomla info: " ++ m)) ∧
      (callResults (run e .infoVersion args).trace =
          [(.joomlaGetVersion e.cmsPath, (e.joomlaGetVersion e.cmsPath).2.2)] ∧
        logsOf (run e .infoVersion args).trace =
          (e.joomlaGetVersion e.cmsPath).2.2.toList.map
            (fun m => "Error showing joomla version: " ++ m))) ∧
    (cmd = .usersInfo → adapterCalls (run e cmd args).trace = []) ∧
    (cmd ≠ .usersInfo →
      ((detectCMS e).1 = "joomla" ∧ (cmd = .usersList ∨ cmd = .usersEdit) ∧
          (e.joomlaProcessJoomla e.cmsPath).2.2.2 = none →
        (adapterCalls (run e cmd args).trace).length = 2) ∧
      (¬((detectCMS e).1 = "joomla" ∧ (cmd = .usersList ∨ cmd = .usersEdit) ∧
          (e.joomlaProcessJoomla e.cmsPath).2.2.2 = none) →
        (adapterCalls (run e cmd args).trace).length = 1)) ∧
    (callErrors (run e cmd args).trace).length ≤ 1 ∧
    (logsOf (run e cmd args).trace).length = (callErrors (run e cmd args).trace).length := by
  obtain ⟨hs, _, hlen, hle⟩ := run_detected_facts e cmd args ha hd
  obtain ⟨hc0, hc1⟩ := run_detected_calls e cmd args ha hd
  exact ⟨hs, rfl, run_wordpress_dispatch e args username, run_joomla_dispatch e args username,
    hc0, hc1, hle, hlen⟩

/-- C6, amended, at the wordpress root `/srv/wp` for `info db` (one
operation, `ShowInfo`, no error, no log line) and at the joomla root `/srv/j`
for `users list` (`ProcessJoomla`, then `ListUsers`). -/
theorem dispatch_total_witness :
    (run (sampleEnv "/srv/wp" ["/srv/wp", "/srv/wp/wp-config.php"]) .infoDb []).status =
      .returned ∧
    callResults (run (sampleEnv "/srv/wp" ["/srv/wp", "/srv/wp/wp-config.php"])
      .infoDb []).trace = [(.wordpressShowInfo "/srv/wp", none)] ∧
    logsOf (run (sampleEnv "/srv/wp" ["/srv/wp", "/srv/wp/wp-config.php"])
      .infoDb []).trace = [] ∧
    callResults (run (sampleEnv "/srv/j" ["/srv/j", "/srv/j/configuration.php"])
      .usersList []).trace =
      [(.joomlaProcessJoomla "/srv/j", none), (.joomlaListUsers 1 "jos_", none)] :=
  have h := dispatch_total (sampleEnv "/srv/wp" ["/srv/wp", "/srv/wp/wp-config.php"])
    .infoDb [] "" (by decide) (by decide)
  have hj := dispatch_total (sampleEnv "/srv/j" ["/srv/j", "/srv/j/configuration.php"])
    .usersList [] "" (by decide) (by decide)
  ⟨h.1, (h.2.2.1 (by decide)).2.2.1.1, (h.2.2.1 (by decide)).2.2.1.2,
   ((hj.2.2.2.1 (by decide)).1 1 ⟨"joomla_db", "joomla_user"⟩ "jos_" rfl).1.1⟩

/-! ## What the handlers print and forward -/

/-- The usage line `edit [USERNAME]` writes the argument in square brackets,
but `cobra.ExactArgs(1)` requires it: `users edit` without a username is
rejected with `accepts 1 arg(s), received 0` and status 1, in every
environment, before the path check and before any handler. -/
theorem edit_without_username_rejected (e : Env) :
    validateArgs .usersEdit [] = some "accepts 1 arg(s), received 0" ∧
    main e .usersEdit [] = ⟨[.log "accepts 1 arg(s), received 0"], 1⟩ := by
  have h : validateArgs .usersEdit [] = some "accepts 1 arg(s), received 0" := by decide
  exact ⟨h, main_of_bad_args e .usersEdit [] _ h⟩


/-- C7, as stated, fails: on the joomla root `/srv/j`, with `joomla.GetVersion`
succeeding with version `4.4.1` and an empty release, `info version` prints a
`Release:` line all the same. -/
theorem empty_release_printed_example :
    (detectCMS (joomlaEnv "/srv/j" ["/srv/j", "/srv/j/configuration.php"] "" [])).1 =
      "joomla" ∧
    (joomlaEnv "/srv/j" ["/srv/j", "/srv/j/configuration.php"] "" []).joomlaGetVersion
      "/srv/j" = ("4.4.1", "", none) ∧
    stdoutOf (main (joomlaEnv "/srv/j" ["/srv/j", "/srv/j/configuration.php"] "" [])
      .infoVersion []).trace = ["joomla Version: 4.4.1\n", "Release: \n"] := by
  refine ⟨by decide, by decide, by decide⟩

/-- C7, amended. When `GetVersion` succeeds, `info version` prints the
`Release:` line exactly when the detected platform is joomla, whatever the
release string, the empty one included: on joomla the output is the version
line followed by the `Release:` line, on wordpress it is the version line
alone. -/
theorem release_line_by_platform (e : Env) :
    ((detectCMS e).1 = "wordpress" →
      ∀ v, e.wordpressGetVersion e.cmsPath = (v, none) →
        stdoutOf (versionCmdRun e).trace = ["wordpress Version: " ++ v ++ "\n"]) ∧
    ((detectCMS e).1 = "joomla" →
      ∀ v rel, e.joomlaGetVersion e.cmsPath = (v, rel, none) →
        stdoutOf (versionCmdRun e).trace =
          ["joomla Version: " ++ v ++ "\n", "Release: " ++ rel ++ "\n"]) := by
  constructor
  · intro ht v hv
    rcases detectCMS_cases e with ⟨_, hc⟩ | ⟨_, _, hc⟩ | ⟨_, _, hc⟩
    · rw [versionCmdRun_wordpress e ht, hc, hv]
      simp [stdoutOf]
    · rw [hc] at ht
      simp at ht
    · rw [hc] at ht
      simp at ht
  · intro ht v rel hv
    rcases detectCMS_cases e with ⟨_, hc⟩ | ⟨_, _, hc⟩ | ⟨_, _, hc⟩
    · rw [hc] at ht
      simp at ht
    · rw [versionCmdRun_joomla e ht, hc, hv]
      simp [stdoutOf]
    · rw [hc] at ht
      simp at ht

/-- C7, amended, at a wordpress root and at a joomla root whose release is
empty. -/
theorem release_line_by_platform_witness :
    stdoutOf (versionCmdRun (sampleEnv "/srv/wp" ["/srv/wp", "/srv/wp/wp-config.php"])).trace =
      ["wordpress Version: " ++ "6.4.2" ++ "\n"] ∧
    stdoutOf (versionCmdRun
      (joomlaEnv "/srv/j" ["/srv/j", "/srv/j/configuration.php"] "" [])).trace =
      ["joomla Version: " ++ "4.4.1" ++ "\n", "Release: " ++ "" ++ "\n"] :=
  ⟨(release_line_by_platform (sampleEnv "/srv/wp" ["/srv/wp", "/srv/wp/wp-config.php"])).1
      (by decide) "6.4.2" rfl,
   (release_line_by_platform
      (joomlaEnv "/srv/j" ["/srv/j", "/srv/j/configuration.php"] "" [])).2
      (by decide) "4.4.1" "" rfl⟩

/-- C8, as stated, fails: on the wordpress root `/srv/wp`, `users edit` with
the empty string as its one argument passes argument validation, and the
handler calls `wordpress.EditUser` with the empty username; the invocation
exits with status 0. -/
theorem empty_username_forwarded_example :
    validateArgs .usersEdit [""] = none ∧
    (detectCMS (sampleEnv "/srv/wp" ["/srv/wp", "/srv/wp/wp-config.php"])).1 = "wordpress" ∧
    main (sampleEnv "/srv/wp" ["/srv/wp", "/srv/wp/wp-config.php"]) .usersEdit [""] =
      ⟨[.stat "/srv/wp", .stat "/srv/wp/wp-config.php",
        .call (.wordpressEditUser "/srv/wp" "") none], 0⟩ := by
  refine ⟨by decide, by decide, by decide⟩

/-- C8, amended. `users edit` accepts every single argument, the empty string
included, and forwards it unchanged: on wordpress the handler calls
`wordpress.EditUser` with the root path and that argument, and nothing else;
on joomla it calls `ProcessJoomla` and, when that returned no error,
`joomla.EditUser` with the handle and prefix it got, the root path and that
argument; when `ProcessJoomla` returned an error, `EditUser` is not called. -/
theorem edit_forwards_username (e : Env) (username : String) :
    validateArgs .usersEdit [username] = none ∧
    ((detectCMS e).1 = "wordpress" →
      adapterCalls (run e .usersEdit [username]).trace =
        [.wordpressEditUser e.cmsPath username]) ∧
    ((detectCMS e).1 = "joomla" →
      (∀ db cfg pfx, e.joomlaProcessJoomla e.cmsPath = (db, cfg, pfx, none) →
        adapterCalls (run e .usersEdit [username]).trace =
          [.joomlaProcessJoomla e.cmsPath, .joomlaEditUser db pfx e.cmsPath username]) ∧
      (∀ db cfg pfx m, e.joomlaProcessJoomla e.cmsPath = (db, cfg, pfx, some m) →
        adapterCalls (run e .usersEdit [username]).trace =
          [.joomlaProcessJoomla e.cmsPath])) := by
  refine ⟨by simp [validateArgs], ?_, ?_⟩
  · intro ht
    rcases detectCMS_cases e with ⟨_, hc⟩ | ⟨_, _, hc⟩ | ⟨_, _, hc⟩
    · rw [run, editCmdRun_wordpress e username [] ht, hc]
      cases hr : e.wordpressEditUser e.cmsPath username <;> simp [adapterCalls]
    · rw [hc] at ht
      simp at ht
    · rw [hc] at ht
      simp at ht
  · intro ht
    rcases detectCMS_cases e with ⟨_, hc⟩ | ⟨_, _, hc⟩ | ⟨_, _, hc⟩
    · rw [hc] at ht
      simp at ht
    · constructor
      · intro db cfg pfx hp
        rw [run, editCmdRun_joomla e username [] ht, hc, hp]
        cases hr : e.joomlaEditUser db pfx e.cmsPath username <;> simp [adapterCalls, hr]
      · intro db cfg pfx m hp
        rw [run, editCmdRun_joomla e username [] ht, hc, hp]
        simp [adapterCalls]
    · rw [hc] at ht
      simp at ht

/-- C8, amended, on a wordpress root with the empty username and on a joomla
root with the username `admin`. -/
theorem edit_forwards_username_witness :
    adapterCalls (run (sampleEnv "/srv/wp" ["/srv/wp", "/srv/wp/wp-config.php"])
      .usersEdit [""]).trace = [.wordpressEditUser "/srv/wp" ""] ∧
    adapterCalls (run (sampleEnv "/srv/j" ["/srv/j", "/srv/j/configuration.php"])
      .usersEdit ["admin"]).trace =
      [.joomlaProcessJoomla "/srv/j", .joomlaEditUser 1 "jos_" "/srv/j" "admin"] :=
  ⟨(edit_forwards_username (sampleEnv "/srv/wp" ["/srv/wp", "/srv/wp/wp-config.php"]) "").2.1
      (by decide),
   ((edit_forwards_username (sampleEnv "/srv/j" ["/srv/j", "/srv/j/configuration.php"])
      "admin").2.2 (by decide)).1 1 ⟨"joomla_db", "joomla_user"⟩ "jos_" rfl⟩

/-- C9. On joomla, when `ProcessJoomla` and `ListUsers` both succeed,
`users list` prints the three configuration lines and the heading, and then
exactly the lines of the returned records: one line per record, in the order
of the returned sequence, each line being the `ID`, `Username`, `Name`,
`Email` and `Roles` of its record in the format of `userLine`. -/
theorem list_users_lines (e : Env) (db : Nat) (cfg : Config) (pfx : String)
    (users : List User)
    (ht : (detectCMS e).1 = "joomla")
    (hp : e.joomlaProcessJoomla e.cmsPath = (db, cfg, pfx, none))
    (hl : e.joomlaListUsers db pfx = (users, none)) :
    stdoutOf (listCmdRun e).trace =
      ["Joomla DB Name: " ++ cfg.DBName ++ "\n",
       "Joomla DB User: " ++ cfg.User ++ "\n",
       "Identified Joomla table prefixes: " ++ pfx ++ "\n",
       "\nUsers for prefix '" ++ pfx ++ "':\n"] ++ users.map userLine ∧
    (stdoutOf (listCmdRun e).trace).drop 4 = users.map userLine ∧
    ((stdoutOf (listCmdRun e).trace).drop 4).length = users.length ∧
    (∀ i (hi : i < users.length),
      (stdoutOf (listCmdRun e).trace)[i + 4]? = some (userLine (users.get ⟨i, hi⟩))) := by
  have hout : stdoutOf (listCmdRun e).trace =
      ["Joomla DB Name: " ++ cfg.DBName ++ "\n",
       "Joomla DB User: " ++ cfg.User ++ "\n",
       "Identified Joomla table prefixes: " ++ pfx ++ "\n",
       "\nUsers for prefix '" ++ pfx ++ "':\n"] ++ users.map userLine := by
    rcases detectCMS_cases e with ⟨_, hc⟩ | ⟨_, _, hc⟩ | ⟨_, _, hc⟩
    · rw [hc] at ht
      simp at ht
    · rw [listCmdRun_joomla e ht, hc, hp]
      have h1 := (filters_map_out userLine users).2.2.2.2
      simp only [stdoutOf, List.filterMap_map] at h1
      simp [stdoutOf, hl, h1]
    · rw [hc] at ht
      simp at ht
  refine ⟨hout, ?_, ?_, ?_⟩
  · rw [hout]
    simp
  · rw [hout]
    simp
  · intro i hi
    rw [hout]
    simp [hi]

/-- C9, on the joomla root `/srv/j` with two returned records. -/
theorem list_users_lines_witness :
    (stdoutOf (listCmdRun (joomlaEnv "/srv/j" ["/srv/j", "/srv/j/configuration.php"] "Stable"
      [⟨7, "root", "Admin", "root@example.org", ["Super Users"]⟩,
       ⟨3, "ann", "Ann", "ann@example.org", []⟩])).trace).drop 4 =
      ["ID:7  Username:root  Name:Admin  Email:root@example.org  Roles:[Super Users]\n",
       "ID:3  Username:ann  Name:Ann  Email:ann@example.org  Roles:[]\n"] :=
  (list_users_lines (joomlaEnv "/srv/j" ["/srv/j", "/srv/j/configuration.php"] "Stable"
      [⟨7, "root", "Admin", "root@example.org", ["Super Users"]⟩,
       ⟨3, "ann", "Ann", "ann@example.org", []⟩])
    1 ⟨"joomla_db", "joomla_user"⟩ "jos_"
    [⟨7, "root", "Admin", "root@example.org", ["Super Users"]⟩,
     ⟨3, "ann", "Ann", "ann@example.org", []⟩]
    (by decide) rfl rfl).2.1.trans (by decide)

end Cmsmgmt
